import Mathlib

/-!
Shallow embedding of the resume PDF generation API route (the server-side
document assembly pipeline): profile store, template registry, content
normalization (JSON extraction, repair and validation), positional
experience merge, render pipeline resource handling, and filename
derivation.  Each definition is translated from the source handler file.
-/

/-- JSON values as produced by the JavaScript JSON parser.  Numbers keep
their source lexeme; object member lists keep source order. -/
inductive Json where
  | null : Json
  | bool (b : Bool) : Json
  | num (lexeme : String) : Json
  | str (s : String) : Json
  | arr (elems : List Json) : Json
  | obj (members : List (String × Json)) : Json

/-- A JSON number lexeme denotes zero exactly when its mantissa digits are
all zero (for example 0, -0, 0.00, 0e5). -/
def numIsZero (lexeme : String) : Bool :=
  (lexeme.data.takeWhile (fun c => !(c == 'e') && !(c == 'E'))).all
    (fun c => c == '0' || c == '-' || c == '.')

/-- JavaScript truthiness of a JSON value: false, null, 0 and the empty
string are falsy; every object and array (empty included) is truthy. -/
def jsTruthy : Json → Bool
  | Json.null => false
  | Json.bool b => b
  | Json.num lexeme => !(numIsZero lexeme)
  | Json.str s => !(s.isEmpty)
  | Json.arr _ => true
  | Json.obj _ => true

/-- Truthiness of a possibly absent value: an absent property (undefined)
is falsy. -/
def truthyO : Option Json → Bool
  | none => false
  | some j => jsTruthy j

/-- Property access on a JSON value: own-key lookup on objects (with the
last duplicate winning, as the JavaScript parser builds objects), undefined
on every other value. -/
def getProp (j : Json) (key : String) : Option Json :=
  match j with
  | Json.obj members => (members.reverse.find? (fun m => m.fst == key)).map (fun m => m.snd)
  | _ => none

def kTitle : String := "title"

def kSummary : String := "summary"

def kSkills : String := "skills"

def kExperience : String := "experience"

def kDetails : String := "details"

def kCompany : String := "company"

def kLocation : String := "location"

def kStartDate : String := "start_date"

def kEndDate : String := "end_date"

def kDefault : String := "default"

def engineerDefault : String := "Engineer"

/-- Fixed message of the required-field validation error thrown by the
handler. -/
def requiredFieldsMsg : String :=
  "JSON missing required fields (title, summary, skills, or experience)"

/-- Required-field validation: mirrors
if (!resumeContent.title || !resumeContent.summary || !resumeContent.skills
|| !resumeContent.experience) throw new Error(requiredFieldsMsg). -/
def validateRequiredFields (resumeContent : Json) : Except String Json :=
  if !truthyO (getProp resumeContent kTitle)
      || !truthyO (getProp resumeContent kSummary)
      || !truthyO (getProp resumeContent kSkills)
      || !truthyO (getProp resumeContent kExperience)
  then Except.error requiredFieldsMsg
  else Except.ok resumeContent

/-- JavaScript logical-or on possibly absent values: the first operand when
it is truthy, the second otherwise. -/
def orJS (a b : Option Json) : Option Json := if truthyO a then a else b

/-- Optional chaining followed by property access, as in value?.key:
undefined when the receiver is absent, property access otherwise. -/
def optChainProp (o : Option Json) (key : String) : Option Json :=
  match o with
  | none => none
  | some j => getProp j key

/-- One entry of templateData.experience. -/
structure MergedExp where
  title : Option Json
  company : Option Json
  location : Option Json
  start_date : Option Json
  end_date : Option Json
  details : Option Json

/-- The body of the map over profileData.experience building one merged
entry from profile job idx and submitted experience entry idx:
title: job.title || resumeContent.experience[idx]?.title || "Engineer",
structural fields from the job, and
details: resumeContent.experience[idx]?.details || []. -/
def mergeJob (subExp : List Json) (idx : Nat) (job : Json) : MergedExp :=
  { title := orJS (orJS (getProp job kTitle) (optChainProp (subExp[idx]?) kTitle))
      (some (Json.str engineerDefault)),
    company := getProp job kCompany,
    location := getProp job kLocation,
    start_date := getProp job kStartDate,
    end_date := getProp job kEndDate,
    details := orJS (optChainProp (subExp[idx]?) kDetails) (some (Json.arr [])) }

/-- Index-tracking recursion of the map over the profile job list. -/
def mergedExperienceAux (subExp : List Json) : Nat → List Json → List MergedExp
  | _, [] => []
  | idx, job :: rest => mergeJob subExp idx job :: mergedExperienceAux subExp (idx + 1) rest

/-- templateData.experience: profileData.experience.map((job, idx) => ...),
positionally pairing profile jobs with submitted experience entries. -/
def mergedExperience (profileJobs subExp : List Json) : List MergedExp :=
  mergedExperienceAux subExp 0 profileJobs

/-- Profile store: loadProfile with its in-memory cache.  The store
argument models reading and parsing resumes/name.json (absent when
fs.existsSync is false); the cache is an association list.  Returns the
looked-up profile (null modeled as none) together with the cache after the
call. -/
def loadProfile (store : String → Option Json) (profileCache : List (String × Json))
    (profileName : String) : Option Json × List (String × Json) :=
  match profileCache.lookup profileName with
  | some p => (some p, profileCache)
  | none =>
    match store profileName with
    | none => (none, profileCache)
    | some profileData => (some profileData, (profileName, profileData) :: profileCache)

/-- The 404 branch of the handler: a missing profile is answered with
status 404 and a plain-text message, before any rendering happens. -/
def profileLookupResponse (loaded : Option Json) (profileName : String) :
    Except (Nat × String) Json :=
  match loaded with
  | none => Except.error (404, "Profile \"" ++ profileName ++ "\" not found")
  | some p => Except.ok p

/-- The template registry: identifier to layout file name. -/
def TEMPLATE_OPTIONS : List (String × String) :=
  [("default", "Resume.html"),
   ("modern", "Resume_Modern.html"),
   ("classic", "Resume_Classic.html"),
   ("contemporary", "Resume_Contemporary.html"),
   ("compact", "Resume_Compact.html"),
   ("elegant", "Resume_Elegant.html")]

/-- A compiled layout; Handlebars compilation is external, so the compiled
value is kept symbolic as the template source it was compiled from. -/
structure CompiledTemplate where
  source : String

def compileTemplate (src : String) : CompiledTemplate := { source := src }

/-- A value produced by the bracket lookup on the registry object: either
an own entry (a layout file name, a string) or a property inherited from
the object prototype (a function or object, truthy but not a string). -/
inductive JsProp where
  | file (templateFile : String) : JsProp
  | builtinProp : JsProp

/-- Property names every plain object literal inherits from the object
prototype; looking any of them up on the registry yields a truthy
non-string value. -/
def objectPrototypeProps : List String :=
  ["constructor", "hasOwnProperty", "isPrototypeOf", "propertyIsEnumerable",
   "toLocaleString", "toString", "valueOf", "__proto__",
   "__defineGetter__", "__defineSetter__", "__lookupGetter__", "__lookupSetter__"]

/-- The bracket lookup TEMPLATE_OPTIONS[templateName] with prototype-chain
semantics: an own entry wins, otherwise an inherited prototype property is
found, otherwise the result is undefined (falsy). -/
def templateOptionsLookup (name : String) : Option JsProp :=
  match TEMPLATE_OPTIONS.lookup name with
  | some templateFile => some (JsProp.file templateFile)
  | none => if objectPrototypeProps.contains name then some JsProp.builtinProp else none

/-- The identifier validation step at the top of getTemplate: identifiers
whose bracket lookup is falsy (undefined) are replaced by the default
identifier.  Every present value, inherited prototype properties included,
is truthy and escapes the rewrite. -/
def resolveTemplateName (requested : String) : String :=
  if (templateOptionsLookup requested).isNone then kDefault else requested

/-- Message of the TypeError thrown by path.join when the looked-up
registry value is not a string (an inherited prototype property). -/
def msgPathJoinTypeError : String :=
  "The \"path\" argument must be of type string. Received function"

/-- Message standing for the fatal configuration case in which the default
layout itself is unavailable (the source recurses without progress). -/
def msgDefaultUnavailable : String := "default template unavailable"

/-- getTemplate: validate the identifier, consult the compilation cache,
otherwise look the identifier up again for the layout file name and join it
into a path, a step that throws a TypeError when the looked-up value is an
inherited prototype property rather than a string; then load and compile
the file and cache it; when the file is missing, fall back to getTemplate
on the default identifier (without caching).  fsRead models fs.existsSync
plus fs.readFileSync; the fuel bounds the default-fallback recursion, and
exhaustion (the default layout itself unavailable) is the fatal
configuration case. -/
def getTemplateGo (fsRead : String → Option String) :
    Nat → List (String × CompiledTemplate) → String →
    Except String (CompiledTemplate × List (String × CompiledTemplate))
  | 0, _, _ => Except.error msgDefaultUnavailable
  | fuel + 1, templateCache, requested =>
    let templateName := resolveTemplateName requested
    match templateCache.lookup templateName with
    | some t => Except.ok (t, templateCache)
    | none =>
      match templateOptionsLookup templateName with
      | none => Except.error msgDefaultUnavailable
      | some JsProp.builtinProp => Except.error msgPathJoinTypeError
      | some (JsProp.file templateFile) =>
        match fsRead templateFile with
        | none => getTemplateGo fsRead fuel templateCache kDefault
        | some src =>
          Except.ok (compileTemplate src, (templateName, compileTemplate src) :: templateCache)

/-- getTemplate entry point: at most one fallback redirect to the default
identifier can occur, so fuel two covers every run. -/
def getTemplate (fsRead : String → Option String)
    (templateCache : List (String × CompiledTemplate)) (requested : String) :
    Except String (CompiledTemplate × List (String × CompiledTemplate)) :=
  getTemplateGo fsRead 2 templateCache requested

/-- Outcome of the PDF generation section of the handler. -/
structure PdfAttempt where
  status : Nat
  browserLaunched : Bool
  browserClosed : Bool

/-- The browser section of the handler, one Boolean per awaited step that
can throw (launch, newPage, setContent, pdf).  The code runs
launch; newPage; setContent; pdf; close in sequence inside the try block,
and the catch block answers 500 without closing the browser, so close is
reached only when every prior step succeeds. -/
def runPdfStage (launchOk newPageOk setContentOk pdfOk : Bool) : PdfAttempt :=
  if !launchOk then { status := 500, browserLaunched := false, browserClosed := false }
  else if !newPageOk then { status := 500, browserLaunched := true, browserClosed := false }
  else if !setContentOk then { status := 500, browserLaunched := true, browserClosed := false }
  else if !pdfOk then { status := 500, browserLaunched := true, browserClosed := false }
  else { status := 200, browserLaunched := true, browserClosed := true }

/-- ASCII alphanumeric test, the character class of the sanitizer regex
(the case-insensitive flag extends a-z0-9 to upper case). -/
def isAlnumAscii (c : Char) : Bool :=
  decide (('a' ≤ c ∧ c ≤ 'z') ∨ ('A' ≤ c ∧ c ≤ 'Z') ∨ ('0' ≤ c ∧ c ≤ '9'))

/-- First sanitizer pass: every character outside the class becomes an
underscore. -/
def replaceNonAlnum (cs : List Char) : List Char :=
  cs.map (fun c => if isAlnumAscii c then c else '_')

/-- Second sanitizer pass: each maximal run of underscores collapses to a
single underscore. -/
def collapseUnderscores : List Char → List Char
  | [] => []
  | [c] => [c]
  | a :: b :: rest =>
    if a == '_' && b == '_' then collapseUnderscores (b :: rest)
    else a :: collapseUnderscores (b :: rest)

/-- Leading half of the third sanitizer pass: the anchored alternation
removes at most one leading underscore. -/
def dropLeadOne : List Char → List Char
  | [] => []
  | c :: rest => if c == '_' then rest else c :: rest

/-- Trailing half of the third sanitizer pass: at most one trailing
underscore is removed. -/
def dropTrailOne : List Char → List Char
  | [] => []
  | c :: rest =>
    match rest with
    | [] => if c == '_' then [] else [c]
    | d :: rest2 => c :: dropTrailOne (d :: rest2)

/-- sanitizeFilename from the handler: replace characters outside the
class, collapse underscore runs, strip one leading and one trailing
underscore (after collapsing, runs have length one, so this strips them
all). -/
def sanitizeFilename (s : String) : String :=
  String.mk (dropTrailOne (dropLeadOne (collapseUnderscores (replaceNonAlnum s.data))))

/-- The derived attachment filename: the three sanitized parts joined with
underscores plus the literal suffix. -/
def resumeFilename (profileName company role : String) : String :=
  sanitizeFilename profileName ++ "_" ++ sanitizeFilename company ++ "_"
    ++ sanitizeFilename role ++ ".pdf"

/-- Trailing strip as the specification words it: remove every trailing
underscore. -/
def dropTrailAll : List Char → List Char
  | [] => []
  | c :: rest =>
    match dropTrailAll rest with
    | [] => if c == '_' then [] else [c]
    | d :: r2 => c :: d :: r2

/-- Sanitizer following the wording of the specification: replace, collapse
runs, strip all leading and all trailing underscores. -/
def specSanitizeFilename (s : String) : String :=
  String.mk (dropTrailAll ((collapseUnderscores (replaceNonAlnum s.data)).dropWhile
    (fun c => c == '_')))

/-- Filename derivation as the specification words it. -/
def specResumeFilename (profileName company role : String) : String :=
  specSanitizeFilename profileName ++ "_" ++ specSanitizeFilename company ++ "_"
    ++ specSanitizeFilename role ++ ".pdf"

/-- Whitespace as the JSON grammar admits between tokens. -/
def isJsonWs (c : Char) : Bool := c == ' ' || c == '\t' || c == '\n' || c == '\r'

def skipWs (cs : List Char) : List Char := cs.dropWhile isJsonWs

def isDigitCh (c : Char) : Bool := decide ('0' ≤ c ∧ c ≤ '9')

def hexVal (c : Char) : Option Nat :=
  if decide ('0' ≤ c ∧ c ≤ '9') then some (c.toNat - '0'.toNat)
  else if decide ('a' ≤ c ∧ c ≤ 'f') then some (c.toNat - 'a'.toNat + 10)
  else if decide ('A' ≤ c ∧ c ≤ 'F') then some (c.toNat - 'A'.toNat + 10)
  else none

def msgUnexpectedEnd : String := "Unexpected end of JSON input"

def msgUnexpectedToken : String := "Unexpected token in JSON"

def msgBadEscape : String := "Bad escaped character in JSON"

def msgBadControl : String := "Bad control character in JSON string literal"

def msgBadNumber : String := "Unexpected number in JSON"

def msgExpectedColon : String := "Expected colon after property name in JSON"

def msgExpectedCommaOrEnd : String := "Expected comma or closing delimiter in JSON"

def msgExpectedProp : String := "Expected property name in JSON"

def msgDepth : String := "JSON nesting too deep"

def msgTrailing : String := "Unexpected non-whitespace character after JSON"

/-- Body of a JSON string literal (the opening quote already consumed),
with the standard escapes; unescaped control characters are rejected. -/
def parseStringBody : Nat → List Char → List Char → Except String (String × List Char)
  | 0, _, _ => Except.error msgDepth
  | fuel + 1, acc, cs =>
    match cs with
    | [] => Except.error msgUnexpectedEnd
    | c :: rest =>
      if c == '"' then Except.ok (String.mk acc.reverse, rest)
      else if c == '\\' then
        match rest with
        | [] => Except.error msgUnexpectedEnd
        | e :: rest2 =>
          if e == '"' || e == '\\' || e == '/' then parseStringBody fuel (e :: acc) rest2
          else if e == 'b' then parseStringBody fuel (Char.ofNat 8 :: acc) rest2
          else if e == 'f' then parseStringBody fuel (Char.ofNat 12 :: acc) rest2
          else if e == 'n' then parseStringBody fuel ('\n' :: acc) rest2
          else if e == 'r' then parseStringBody fuel ('\r' :: acc) rest2
          else if e == 't' then parseStringBody fuel ('\t' :: acc) rest2
          else if e == 'u' then
            match rest2 with
            | h1 :: h2 :: h3 :: h4 :: rest3 =>
              match hexVal h1, hexVal h2, hexVal h3, hexVal h4 with
              | some a, some b, some c2, some d =>
                parseStringBody fuel (Char.ofNat (4096 * a + 256 * b + 16 * c2 + d) :: acc) rest3
              | _, _, _, _ => Except.error msgBadEscape
            | _ => Except.error msgBadEscape
          else Except.error msgBadEscape
      else if c.toNat < 32 then Except.error msgBadControl
      else parseStringBody fuel (c :: acc) rest

/-- Exponent part of a JSON number lexeme (optional). -/
def numExpPart (acc : List Char) (cs : List Char) : Except String (String × List Char) :=
  match cs with
  | [] => Except.ok (String.mk acc, [])
  | c :: r =>
    if c == 'e' || c == 'E' then
      let (sgn, r1) :=
        match r with
        | '+' :: r2 => ((['+'] : List Char), r2)
        | '-' :: r2 => ((['-'] : List Char), r2)
        | _ => (([] : List Char), r)
      let digits := r1.takeWhile isDigitCh
      if digits.isEmpty then Except.error msgBadNumber
      else Except.ok (String.mk (acc ++ c :: (sgn ++ digits)), r1.dropWhile isDigitCh)
    else Except.ok (String.mk acc, cs)

/-- Fraction part of a JSON number lexeme (optional, at least one digit
when present), followed by the exponent part. -/
def numFracExp (acc : List Char) (cs : List Char) : Except String (String × List Char) :=
  match cs with
  | '.' :: r =>
    let digits := r.takeWhile isDigitCh
    if digits.isEmpty then Except.error msgBadNumber
    else numExpPart (acc ++ '.' :: digits) (r.dropWhile isDigitCh)
  | _ => numExpPart acc cs

/-- A JSON number lexeme: optional minus, an integer part with no leading
zero, optional fraction and exponent. -/
def parseNumberLex (cs : List Char) : Except String (String × List Char) :=
  let (negPart, cs1) :=
    match cs with
    | '-' :: r => ((['-'] : List Char), r)
    | _ => (([] : List Char), cs)
  match cs1 with
  | [] => Except.error msgUnexpectedEnd
  | c :: rest =>
    if c == '0' then numFracExp (negPart ++ ['0']) rest
    else if isDigitCh c then
      numFracExp (negPart ++ c :: rest.takeWhile isDigitCh) (rest.dropWhile isDigitCh)
    else Except.error msgBadNumber

/-- Parser mode: a value, the element loop of an array, or the member loop
of an object. -/
inductive PMode where
  | value : PMode
  | elems (acc : List Json) : PMode
  | members (acc : List (String × Json)) : PMode

/-- Strict recursive-descent JSON parser in the shape of the JSON grammar
the JavaScript runtime implements; fuel only bounds recursion and is
supplied large enough at the entry point. -/
def parseRun : Nat → PMode → List Char → Except String (Json × List Char)
  | 0, _, _ => Except.error msgDepth
  | fuel + 1, PMode.value, cs0 =>
    match skipWs cs0 with
    | [] => Except.error msgUnexpectedEnd
    | c :: rest =>
      if c == '\x7b' then
        match skipWs rest with
        | '\x7d' :: r2 => Except.ok (Json.obj [], r2)
        | _ => parseRun fuel (PMode.members []) rest
      else if c == '[' then
        match skipWs rest with
        | ']' :: r2 => Except.ok (Json.arr [], r2)
        | _ => parseRun fuel (PMode.elems []) rest
      else if c == '"' then
        match parseStringBody (rest.length + 1) [] rest with
        | Except.error e => Except.error e
        | Except.ok (s, r1) => Except.ok (Json.str s, r1)
      else if c == 't' then
        match rest with
        | 'r' :: 'u' :: 'e' :: r2 => Except.ok (Json.bool true, r2)
        | _ => Except.error msgUnexpectedToken
      else if c == 'f' then
        match rest with
        | 'a' :: 'l' :: 's' :: 'e' :: r2 => Except.ok (Json.bool false, r2)
        | _ => Except.error msgUnexpectedToken
      else if c == 'n' then
        match rest with
        | 'u' :: 'l' :: 'l' :: r2 => Except.ok (Json.null, r2)
        | _ => Except.error msgUnexpectedToken
      else if c == '-' || isDigitCh c then
        match parseNumberLex (c :: rest) with
        | Except.error e => Except.error e
        | Except.ok (lexeme, r1) => Except.ok (Json.num lexeme, r1)
      else Except.error msgUnexpectedToken
  | fuel + 1, PMode.elems acc, cs =>
    match parseRun fuel PMode.value cs with
    | Except.error e => Except.error e
    | Except.ok (v, r1) =>
      match skipWs r1 with
      | ']' :: r2 => Except.ok (Json.arr (v :: acc).reverse, r2)
      | ',' :: r2 => parseRun fuel (PMode.elems (v :: acc)) r2
      | _ => Except.error msgExpectedCommaOrEnd
  | fuel + 1, PMode.members acc, cs =>
    match skipWs cs with
    | '"' :: r0 =>
      match parseStringBody (r0.length + 1) [] r0 with
      | Except.error e => Except.error e
      | Except.ok (key, r1) =>
        match skipWs r1 with
        | ':' :: r2 =>
          match parseRun fuel PMode.value r2 with
          | Except.error e => Except.error e
          | Except.ok (v, r3) =>
            match skipWs r3 with
            | '\x7d' :: r4 => Except.ok (Json.obj ((key, v) :: acc).reverse, r4)
            | ',' :: r4 => parseRun fuel (PMode.members ((key, v) :: acc)) r4
            | _ => Except.error msgExpectedCommaOrEnd
        | _ => Except.error msgExpectedColon
    | _ => Except.error msgExpectedProp

/-- JSON.parse: one value, then only whitespace may remain. -/
def parseJson (s : String) : Except String Json :=
  match parseRun (2 * s.data.length + 8) PMode.value s.data with
  | Except.error e => Except.error e
  | Except.ok (v, rest) =>
    if (skipWs rest).isEmpty then Except.ok v else Except.error msgTrailing

/-- Whitespace as the repair regexes match it (the character class of the
script regex engine, modeled on its ASCII members plus no-break space). -/
def isRegexWs (c : Char) : Bool :=
  c == ' ' || c == '\t' || c == '\n' || c == '\r' || c == Char.ofNat 11
    || c == Char.ofNat 12 || c == Char.ofNat 160

/-- Match whitespace then a closing brace or bracket, returning the
whitespace, the bracket and the remainder. -/
def matchWsBracket : List Char → Option (List Char × Char × List Char)
  | [] => none
  | c :: rest =>
    if c == '\x7d' || c == ']' then some ([], c, rest)
    else if isRegexWs c then
      match matchWsBracket rest with
      | some (ws, b, r2) => some (c :: ws, b, r2)
      | none => none
    else none

/-- First repair regex: a comma directly before (possibly whitespace and) a
closing brace or bracket is deleted; the global scan resumes after each
match. -/
def removeTrailingCommasGo : Nat → List Char → List Char
  | 0, cs => cs
  | fuel + 1, cs =>
    match cs with
    | [] => []
    | c :: rest =>
      if c == ',' then
        match matchWsBracket rest with
        | some (ws, b, r2) => ws ++ b :: removeTrailingCommasGo fuel r2
        | none => c :: removeTrailingCommasGo fuel rest
      else c :: removeTrailingCommasGo fuel rest

def removeTrailingCommas (cs : List Char) : List Char :=
  removeTrailingCommasGo cs.length cs

/-- Match whitespace then a comma, returning the remainder after that
comma. -/
def matchWsComma : List Char → Option (List Char)
  | [] => none
  | c :: rest =>
    if c == ',' then some rest
    else if isRegexWs c then matchWsComma rest
    else none

/-- Second repair regex: comma, whitespace, comma collapses to a single
comma; the global scan resumes after each match. -/
def collapseDoubleCommasGo : Nat → List Char → List Char
  | 0, cs => cs
  | fuel + 1, cs =>
    match cs with
    | [] => []
    | c :: rest =>
      if c == ',' then
        match matchWsComma rest with
        | some r2 => ',' :: collapseDoubleCommasGo fuel r2
        | none => c :: collapseDoubleCommasGo fuel rest
      else c :: collapseDoubleCommasGo fuel rest

def collapseDoubleCommas (cs : List Char) : List Char :=
  collapseDoubleCommasGo cs.length cs

/-- The one repair pass of the handler: remove trailing commas, then
collapse double commas. -/
def fixCommonJsonIssues (s : String) : String :=
  String.mk (collapseDoubleCommas (removeTrailingCommas s.data))

/-- Message of the MalformedInput error when the repaired parse also fails:
it carries the message of the first (strict) parse attempt. -/
def malformedMsg (parseErrorMsg : String) : String :=
  "Invalid JSON format: " ++ parseErrorMsg ++ ". Please check your JSON syntax."

/-- Parse-repair-validate section of the handler on the extracted JSON
span: strict parse; on failure one repair pass and one retry; if the retry
fails too, fail with the message of the original parse error; a parsed
value then passes required-field validation. -/
def parseResumeContent (content : String) : Except String Json :=
  match parseJson content with
  | Except.ok v => validateRequiredFields v
  | Except.error parseErr =>
    match parseJson (fixCommonJsonIssues content) with
    | Except.ok v => validateRequiredFields v
    | Except.error _ => Except.error (malformedMsg parseErr)

/-- Trim as applied to the request content. -/
def trimWs (cs : List Char) : List Char :=
  ((cs.dropWhile isRegexWs).reverse.dropWhile isRegexWs).reverse

def backtickCh : Char := Char.ofNat 96

def fenceTagJson : List Char := ['j', 's', 'o', 'n']

def fenceTagJavascript : List Char := ['j', 'a', 'v', 'a', 's', 'c', 'r', 'i', 'p', 't']

/-- Case-insensitive literal match of a lowercase tag. -/
def matchTagCI : List Char → List Char → Option (List Char)
  | [], cs => some cs
  | _ :: _, [] => none
  | p :: ps, c :: cs => if c.toLower == p then matchTagCI ps cs else none

/-- After a fence, the optional language tag (json preferred over
javascript, as in the alternation) and trailing whitespace are consumed. -/
def afterFenceTag (rest : List Char) : List Char :=
  match matchTagCI fenceTagJson rest with
  | some r => r.dropWhile isRegexWs
  | none =>
    match matchTagCI fenceTagJavascript rest with
    | some r => r.dropWhile isRegexWs
    | none => rest.dropWhile isRegexWs

/-- First fence-removal regex: a triple backtick, an optional language tag
and trailing whitespace are deleted wherever they occur. -/
def stripFencesGo : Nat → List Char → List Char
  | 0, cs => cs
  | fuel + 1, cs =>
    match cs with
    | [] => []
    | c :: rest =>
      if c == backtickCh then
        match rest with
        | d :: e :: r2 =>
          if d == backtickCh && e == backtickCh then stripFencesGo fuel (afterFenceTag r2)
          else c :: stripFencesGo fuel rest
        | _ => c :: stripFencesGo fuel rest
      else c :: stripFencesGo fuel rest

/-- Second fence-removal regex: a bare triple backtick and trailing
whitespace are deleted. -/
def stripFencesBareGo : Nat → List Char → List Char
  | 0, cs => cs
  | fuel + 1, cs =>
    match cs with
    | [] => []
    | c :: rest =>
      if c == backtickCh then
        match rest with
        | d :: e :: r2 =>
          if d == backtickCh && e == backtickCh then
            stripFencesBareGo fuel (r2.dropWhile isRegexWs)
          else c :: stripFencesBareGo fuel rest
        | _ => c :: stripFencesBareGo fuel rest
      else c :: stripFencesBareGo fuel rest

/-- Both fence-removal passes of the handler. -/
def stripCodeFences (cs : List Char) : List Char :=
  let p1 := stripFencesGo cs.length cs
  stripFencesBareGo p1.length p1

/-- Index of the first occurrence of a character. -/
def firstIdxOf (target : Char) : List Char → Option Nat
  | [] => none
  | c :: rest =>
    if c == target then some 0 else (firstIdxOf target rest).map (fun i => i + 1)

/-- Index of the last occurrence of a character. -/
def lastIdxOf (target : Char) (cs : List Char) : Option Nat :=
  (firstIdxOf target cs.reverse).map (fun i => cs.length - 1 - i)

def msgNoJsonObject : String :=
  "Invalid JSON format. Please provide valid JSON with title, summary, skills, and experience fields."

/-- Content normalization of the handler end to end: trim, strip code
fences, trim, slice from the first opening brace to the last closing brace
(failing when the span does not exist), then parse, repair and validate. -/
def normalizeContent (jd : String) : Except String Json :=
  let content0 := trimWs jd.data
  let content1 := trimWs (stripCodeFences content0)
  match firstIdxOf '\x7b' content1, lastIdxOf '\x7d' content1 with
  | some firstBrace, some lastBrace =>
    if firstBrace < lastBrace then
      parseResumeContent (String.mk ((content1.take (lastBrace + 1)).drop firstBrace))
    else Except.error msgNoJsonObject
  | _, _ => Except.error msgNoJsonObject

/-- Proof-support predicate: no two adjacent underscores occur in the
list.  Collapsing underscore runs establishes it, and on lists satisfying
it stripping one edge underscore agrees with stripping all of them. -/
def noAdjUnderscore : List Char → Bool
  | [] => true
  | [_] => true
  | a :: b :: rest => !(a == '_' && b == '_') && noAdjUnderscore (b :: rest)

/-- Example input of the repair-pass property: a complete content object
with one trailing comma before the closing brace. -/
def exTrailingComma : String :=
  "\x7b\"title\":\"A\",\"summary\":\"B\",\"skills\":\x7b\x7d,\"experience\":[],\x7d"

/-- The comma-free equivalent of the example input. -/
def exCommaFree : String :=
  "\x7b\"title\":\"A\",\"summary\":\"B\",\"skills\":\x7b\x7d,\"experience\":[]\x7d"

/-- The structured object both example inputs normalize to. -/
def exParsedContent : Json :=
  Json.obj [(kTitle, Json.str ("A")), (kSummary, Json.str ("B")),
    (kSkills, Json.obj []), (kExperience, Json.arr [])]

/-- Example profile job carrying a truthy title. -/
def exJobTitled : Json :=
  Json.obj [(kTitle, Json.str ("Profile Title")), (kCompany, Json.str ("Acme"))]

/-- Example submitted experience entry carrying a truthy title override and
detail bullets. -/
def exSubTitled : Json :=
  Json.obj [(kTitle, Json.str ("Submitted Title")), (kDetails, Json.arr [Json.str ("d1")])]

/-- Example profile job with no title property. -/
def exBareJob : Json := Json.obj [(kCompany, Json.str ("C"))]

/-- Example profile job list of length two. -/
def exJobsTwo : List Json := [exJobTitled, exBareJob]

/-- Example submitted experience list of length one. -/
def exSubOne : List Json := [exSubTitled]

/-- Example parsed content object missing only the title field. -/
def exMissingTitle : Json :=
  Json.obj [(kSummary, Json.str ("B")), (kSkills, Json.obj []), (kExperience, Json.arr [])]

/-- Example parsed content object missing only the summary field. -/
def exMissingSummary : Json :=
  Json.obj [(kTitle, Json.str ("A")), (kSkills, Json.obj []), (kExperience, Json.arr [])]

/-- Example parsed content object whose title key is present but holds the
empty string. -/
def exEmptyTitleContent : Json :=
  Json.obj [(kTitle, Json.str ("")), (kSummary, Json.str ("S")),
    (kSkills, Json.obj []), (kExperience, Json.arr [])]


/-- Left operand wins in the JavaScript or when it is truthy. -/
theorem orJS_of_truthy {a b : Option Json} (h : truthyO a = true) : orJS a b = a := by
  simp [orJS, h]

/-- Right operand wins in the JavaScript or when the left one is falsy. -/
theorem orJS_of_falsy {a b : Option Json} (h : truthyO a = false) : orJS a b = b := by
  simp [orJS, h]

/-- The index-tracking merge recursion preserves the job list length. -/
theorem mergedExperienceAux_length (subExp : List Json) (k : Nat) (jobs : List Json) :
    (mergedExperienceAux subExp k jobs).length = jobs.length := by
  induction jobs generalizing k with
  | nil => rfl
  | cons j rest ih => simp [mergedExperienceAux, ih]

/-- Entry i of the index-tracking merge recursion pairs job i with
submitted entry k + i. -/
theorem mergedExperienceAux_getElem (subExp : List Json) (k : Nat) (jobs : List Json) (i : Nat) :
    (mergedExperienceAux subExp k jobs)[i]?
      = (jobs[i]?).map (fun job => mergeJob subExp (k + i) job) := by
  induction jobs generalizing k i with
  | nil => simp [mergedExperienceAux]
  | cons j rest ih =>
    cases i with
    | zero => simp [mergedExperienceAux]
    | succ n =>
      simp only [mergedExperienceAux, List.getElem?_cons_succ]
      rw [ih (k + 1) n]
      have : k + 1 + n = k + (n + 1) := by omega
      rw [this]

/-- Entry i of the merged experience list pairs profile job i with
submitted experience entry i. -/
theorem mergedExperience_getElem (jobs subExp : List Json) (i : Nat) :
    (mergedExperience jobs subExp)[i]? = (jobs[i]?).map (fun job => mergeJob subExp i job) := by
  have h := mergedExperienceAux_getElem subExp 0 jobs i
  simpa [mergedExperience] using h

/-- A merged entry depends on the submitted list only through the entry at
its own index. -/
theorem mergeJob_congr {s1 s2 : List Json} {i : Nat} (job : Json) (h : s1[i]? = s2[i]?) :
    mergeJob s1 i job = mergeJob s2 i job := by
  simp [mergeJob, h]

/-- Collapsing underscore runs keeps the head character. -/
theorem collapseUnderscores_cons_head (a : Char) (cs : List Char) :
    ∃ t, collapseUnderscores (a :: cs) = a :: t := by
  induction cs generalizing a with
  | nil => exact ⟨[], rfl⟩
  | cons b rest ih =>
    cases hab : (a == '_' && b == '_') with
    | true =>
      obtain ⟨t, ht⟩ := ih b
      have ha : a = '_' := eq_of_beq (Bool.and_eq_true .. ▸ hab).1
      have hb : b = '_' := eq_of_beq (Bool.and_eq_true .. ▸ hab).2
      refine ⟨t, ?_⟩
      rw [collapseUnderscores, if_pos hab, ht, ha, hb]
    | false =>
      exact ⟨collapseUnderscores (b :: rest), by rw [collapseUnderscores, if_neg (by simp [hab])]⟩

/-- Collapsing underscore runs leaves no two adjacent underscores. -/
theorem collapseUnderscores_noAdj (cs : List Char) :
    noAdjUnderscore (collapseUnderscores cs) = true := by
  induction cs with
  | nil => rfl
  | cons a rest ih =>
    cases rest with
    | nil => rfl
    | cons b rest2 =>
      cases hab : (a == '_' && b == '_') with
      | true => simpa [collapseUnderscores, hab] using ih
      | false =>
        obtain ⟨t, ht⟩ := collapseUnderscores_cons_head b rest2
        have h2 : noAdjUnderscore (b :: t) = true := ht ▸ ih
        rw [collapseUnderscores, if_neg (by simp [hab]), ht]
        simp [noAdjUnderscore, hab, h2]

/-- The tail of a list without adjacent underscores is again such a list. -/
theorem noAdjUnderscore_tail (c : Char) (rest : List Char)
    (h : noAdjUnderscore (c :: rest) = true) : noAdjUnderscore rest = true := by
  cases rest with
  | nil => rfl
  | cons d r2 => exact (Bool.and_eq_true .. ▸ h).2

/-- Stripping every trailing underscore returns the empty list on a cons
only when its head is an underscore. -/
theorem dropTrailAll_eq_nil (d : Char) (r : List Char) (h : dropTrailAll (d :: r) = []) :
    d = '_' := by
  rw [dropTrailAll] at h
  cases hr : dropTrailAll r with
  | nil =>
    rw [hr] at h
    cases hd : (d == '_') with
    | true => exact eq_of_beq hd
    | false => rw [hd] at h; simp at h
  | cons x xs => rw [hr] at h; simp at h

/-- On a list without adjacent underscores, stripping one trailing
underscore strips them all. -/
theorem dropTrailOne_eq_all (cs : List Char) (h : noAdjUnderscore cs = true) :
    dropTrailOne cs = dropTrailAll cs := by
  induction cs with
  | nil => rfl
  | cons c rest ih =>
    cases rest with
    | nil => rfl
    | cons d rest2 =>
      have hr : noAdjUnderscore (d :: rest2) = true := noAdjUnderscore_tail c _ h
      have hcd : (c == '_' && d == '_') = false := by
        have h1 := (Bool.and_eq_true .. ▸ h).1
        cases hx : (c == '_' && d == '_') with
        | false => rfl
        | true => rw [hx] at h1; simp at h1
      rw [dropTrailOne, dropTrailAll, ih hr]
      cases hda : dropTrailAll (d :: rest2) with
      | nil =>
        have hd : d = '_' := dropTrailAll_eq_nil d rest2 hda
        have hc : (c == '_') = false := by
          cases hc2 : (c == '_') with
          | false => rfl
          | true => rw [hc2, hd] at hcd; simp at hcd
        simp [hc]
      | cons x xs => rfl

/-- On a list without adjacent underscores, removing one leading underscore
removes every leading underscore. -/
theorem dropLeadOne_eq_dropWhile (cs : List Char) (h : noAdjUnderscore cs = true) :
    dropLeadOne cs = cs.dropWhile (fun c => c == '_') := by
  cases cs with
  | nil => rfl
  | cons c rest =>
    cases hc : (c == '_') with
    | false => simp [dropLeadOne, hc, List.dropWhile_cons]
    | true =>
      have hrest : rest.dropWhile (fun x => x == '_') = rest := by
        cases rest with
        | nil => rfl
        | cons d r2 =>
          have hd : (d == '_') = false := by
            have h1 := (Bool.and_eq_true .. ▸ h).1
            cases hd2 : (d == '_') with
            | false => rfl
            | true => rw [hc, hd2] at h1; simp at h1
          simp [List.dropWhile_cons, hd]
      simp [dropLeadOne, hc, List.dropWhile_cons, hrest]

/-- The one-edge strip applied after collapsing preserves the absence of
adjacent underscores. -/
theorem noAdj_dropLeadOne (l : List Char) (h : noAdjUnderscore l = true) :
    noAdjUnderscore (dropLeadOne l) = true := by
  cases l with
  | nil => rfl
  | cons c rest =>
    cases hc : (c == '_') with
    | true => simpa [dropLeadOne, hc] using noAdjUnderscore_tail c rest h
    | false => simpa [dropLeadOne, hc] using h

/-- The sanitizer of the handler agrees with the sanitizer worded by the
specification on every input. -/
theorem sanitizeFilename_eq_spec (s : String) : sanitizeFilename s = specSanitizeFilename s := by
  unfold sanitizeFilename specSanitizeFilename
  rw [← dropLeadOne_eq_dropWhile _ (collapseUnderscores_noAdj _)]
  rw [dropTrailOne_eq_all _ (noAdj_dropLeadOne _ (collapseUnderscores_noAdj _))]

/-- Claim C1 counterexample: when the profile job title and the submitted
title override at the same index are both truthy, the merged entry keeps
the profile job title, not the submitted override the claim asks for. -/
theorem claim_C1_counterexample :
    (mergedExperience [exJobTitled] [exSubTitled]).map MergedExp.title
      = [some (Json.str ("Profile Title"))] ∧
    optChainProp (([exSubTitled] : List Json)[0]?) kTitle
      = some (Json.str ("Submitted Title")) ∧
    (some (Json.str ("Profile Title")) : Option Json)
      ≠ (some (Json.str ("Submitted Title")) : Option Json) := by
  refine ⟨rfl, rfl, ?_⟩
  intro h
  injection h with h1
  injection h1 with h2
  exact absurd h2 (by decide)

/-- Claim C1 amended: merged entry i exists exactly when profile job i
does; its structural fields come from profile job i and, when truthy, its
details from submitted entry i; its title prefers the profile job title,
falling back to the submitted title override only when the job title is
absent or falsy. -/
theorem claim_C1_amended (jobs subExp : List Json) (i : Nat) (job : Json)
    (hj : jobs[i]? = some job) :
    (mergedExperience jobs subExp)[i]? = some (mergeJob subExp i job) ∧
    (mergeJob subExp i job).company = getProp job kCompany ∧
    (mergeJob subExp i job).location = getProp job kLocation ∧
    (mergeJob subExp i job).start_date = getProp job kStartDate ∧
    (mergeJob subExp i job).end_date = getProp job kEndDate ∧
    (truthyO (optChainProp (subExp[i]?) kDetails) = true →
      (mergeJob subExp i job).details = optChainProp (subExp[i]?) kDetails) ∧
    (truthyO (getProp job kTitle) = true →
      (mergeJob subExp i job).title = getProp job kTitle) ∧
    (truthyO (getProp job kTitle) = false →
      truthyO (optChainProp (subExp[i]?) kTitle) = true →
      (mergeJob subExp i job).title = optChainProp (subExp[i]?) kTitle) := by
  refine ⟨?_, rfl, rfl, rfl, rfl, ?_, ?_, ?_⟩
  · rw [mergedExperience_getElem, hj]; rfl
  · intro hd
    simp [mergeJob, orJS_of_truthy hd]
  · intro ht
    have h1 : orJS (getProp job kTitle) (optChainProp (subExp[i]?) kTitle)
        = getProp job kTitle := orJS_of_truthy ht
    simp [mergeJob, h1, orJS_of_truthy ht]
  · intro ht hs
    have h1 : orJS (getProp job kTitle) (optChainProp (subExp[i]?) kTitle)
        = optChainProp (subExp[i]?) kTitle := orJS_of_falsy ht
    simp [mergeJob, h1, orJS_of_truthy hs]

/-- Claim C1 witness: concrete instantiation of the amended statement at a
job with a truthy title and an empty submitted list. -/
theorem claim_C1_witness :
    ([exJobTitled] : List Json)[0]? = some exJobTitled ∧
    (mergedExperience [exJobTitled] [])[0]? = some (mergeJob [] 0 exJobTitled) ∧
    (mergeJob [] 0 exJobTitled).title = getProp exJobTitled kTitle := by
  have h := claim_C1_amended [exJobTitled] [] 0 exJobTitled rfl
  exact ⟨rfl, h.1, h.2.2.2.2.2.2.1 rfl⟩

/-- Claim C2 counterexample: two parsed objects missing different required
fields fail with the identical fixed message, so the error message does not
name which fields are missing. -/
theorem claim_C2_counterexample :
    validateRequiredFields exMissingTitle = Except.error requiredFieldsMsg ∧
    validateRequiredFields exMissingSummary = Except.error requiredFieldsMsg ∧
    getProp exMissingTitle kTitle = none ∧
    getProp exMissingSummary kTitle = some (Json.str ("A")) ∧
    getProp exMissingSummary kSummary = none :=
  ⟨rfl, rfl, rfl, rfl, rfl⟩

/-- Claim C2 amended: a parsed content object missing any of the four
required fields fails validation with the fixed message that lists the four
required field names but not which of them are missing. -/
theorem claim_C2_amended (resumeContent : Json)
    (h : getProp resumeContent kTitle = none ∨ getProp resumeContent kSummary = none ∨
      getProp resumeContent kSkills = none ∨ getProp resumeContent kExperience = none) :
    validateRequiredFields resumeContent = Except.error requiredFieldsMsg := by
  unfold validateRequiredFields
  rcases h with h | h | h | h <;> rw [h] <;> simp [truthyO]

/-- Claim C2 witness: the amended statement applied to the object missing
only the title field. -/
theorem claim_C2_witness :
    validateRequiredFields exMissingTitle = Except.error requiredFieldsMsg :=
  claim_C2_amended exMissingTitle (Or.inl rfl)

/-- Claim C9: required-field validation tests truthiness, so a required
key that is present but holds a falsy value still fails with the
missing-fields error. -/
theorem claim_C9 (resumeContent v : Json) (key : String)
    (hk : key = kTitle ∨ key = kSummary ∨ key = kSkills ∨ key = kExperience)
    (hv : getProp resumeContent key = some v) (ht : jsTruthy v = false) :
    validateRequiredFields resumeContent = Except.error requiredFieldsMsg := by
  have hto : truthyO (getProp resumeContent key) = false := by
    rw [hv]; simpa [truthyO] using ht
  unfold validateRequiredFields
  rcases hk with h | h | h | h <;> subst h <;> rw [hto] <;> simp

/-- Claim C9 witness: a content object whose title key exists but holds the
empty string fails validation. -/
theorem claim_C9_witness :
    validateRequiredFields exEmptyTitleContent = Except.error requiredFieldsMsg :=
  claim_C9 exEmptyTitleContent (Json.str ("")) kTitle (Or.inl rfl) rfl rfl

/-- Claim C4: the merged experience list always has exactly as many entries
as the profile job list; entries beyond the submitted list get an empty
detail array; and submitted entries beyond the job list are ignored (the
merge only depends on the first m submitted entries). -/
theorem claim_C4 (jobs subExp : List Json) :
    (mergedExperience jobs subExp).length = jobs.length ∧
    (∀ i, subExp.length ≤ i →
      ((mergedExperience jobs subExp)[i]?).map MergedExp.details
        = (jobs[i]?).map (fun _ => some (Json.arr []))) ∧
    mergedExperience jobs (subExp.take jobs.length) = mergedExperience jobs subExp := by
  refine ⟨mergedExperienceAux_length subExp 0 jobs, ?_, ?_⟩
  · intro i hi
    rw [mergedExperience_getElem]
    cases hj : jobs[i]? with
    | none => rfl
    | some job =>
      have hsub : subExp[i]? = none := List.getElem?_eq_none hi
      simp only [Option.map_some']
      have : (mergeJob subExp i job).details = some (Json.arr []) := by
        simp [mergeJob, hsub, optChainProp, orJS, truthyO]
      rw [this]
  · apply List.ext_getElem?
    intro n
    rw [mergedExperience_getElem, mergedExperience_getElem]
    cases hj : jobs[n]? with
    | none => rfl
    | some job =>
      have hn : n < jobs.length := (List.getElem?_eq_some_iff.mp hj).1
      have htake : (subExp.take jobs.length)[n]? = subExp[n]? :=
        List.getElem?_take_of_lt hn
      simp only [Option.map_some']
      rw [mergeJob_congr job htake]

/-- Claim C4 witness: two profile jobs merged with one submitted entry
yield two merged entries, the second with an empty detail array. -/
theorem claim_C4_witness :
    (mergedExperience exJobsTwo exSubOne).length = exJobsTwo.length ∧
    ((mergedExperience exJobsTwo exSubOne)[1]?).map MergedExp.details
      = some (some (Json.arr [])) := by
  refine ⟨(claim_C4 exJobsTwo exSubOne).1, ?_⟩
  have h := (claim_C4 exJobsTwo exSubOne).2.1 1 (by decide)
  rw [h]
  rfl

/-- Claim C10: when profile job title and positional submitted title are
both absent or falsy, the merged title is the hardcoded Engineer string. -/
theorem claim_C10 (jobs subExp : List Json) (i : Nat) (job : Json)
    (hj : jobs[i]? = some job)
    (h1 : truthyO (getProp job kTitle) = false)
    (h2 : truthyO (optChainProp (subExp[i]?) kTitle) = false) :
    ((mergedExperience jobs subExp)[i]?).map MergedExp.title
      = some (some (Json.str engineerDefault)) := by
  rw [mergedExperience_getElem, hj]
  simp only [Option.map_some']
  have hin : orJS (getProp job kTitle) (optChainProp (subExp[i]?) kTitle)
      = optChainProp (subExp[i]?) kTitle := orJS_of_falsy h1
  have : (mergeJob subExp i job).title = some (Json.str engineerDefault) := by
    simp [mergeJob, hin, orJS_of_falsy h2]
  rw [this]

/-- Claim C10 witness: a job without a title and no submitted entry at the
index yield the Engineer title. -/
theorem claim_C10_witness :
    ((mergedExperience [exBareJob] [])[0]?).map MergedExp.title
      = some (some (Json.str engineerDefault)) :=
  claim_C10 [exBareJob] [] 0 exBareJob rfl rfl rfl

/-- Claim C3: the render pipeline closes the browser only on the success
path.  When markup loading (setContent) or PDF generation (pdf) throws
after the browser session was acquired, the catch block answers 500 with
the session still open, contradicting release on every exit path; the
success path does close it. -/
theorem claim_C3_leak :
    (runPdfStage true true true false).browserLaunched = true ∧
    (runPdfStage true true true false).browserClosed = false ∧
    (runPdfStage true true false true).browserLaunched = true ∧
    (runPdfStage true true false true).browserClosed = false ∧
    (runPdfStage true true true true).browserClosed = true :=
  ⟨rfl, rfl, rfl, rfl, rfl⟩

/-- Claim C5: whenever the strict parse of the extracted span fails, the
normalization result equals the normalization of the repaired (comma-free)
text when the repaired parse succeeds, and when the repaired parse fails
too, the error carries the message of the original (first) parse attempt. -/
theorem claim_C5 (s e1 : String) (h1 : parseJson s = Except.error e1) :
    (∀ v : Json, parseJson (fixCommonJsonIssues s) = Except.ok v →
      parseResumeContent s = parseResumeContent (fixCommonJsonIssues s)) ∧
    (∀ e2 : String, parseJson (fixCommonJsonIssues s) = Except.error e2 →
      parseResumeContent s = Except.error (malformedMsg e1)) := by
  constructor
  · intro v h2
    simp only [parseResumeContent, h1, h2]
  · intro e2 h2
    simp only [parseResumeContent, h1, h2]

/-- Claim C5 witness: the specification example with one trailing comma
fails strict parsing, is repaired to its comma-free equivalent, and
normalizes to the same structured object as that equivalent. -/
theorem claim_C5_witness :
    parseResumeContent exTrailingComma = parseResumeContent (fixCommonJsonIssues exTrailingComma) ∧
    fixCommonJsonIssues exTrailingComma = exCommaFree ∧
    parseResumeContent exTrailingComma = Except.ok exParsedContent := by
  have h := (claim_C5 exTrailingComma msgExpectedProp rfl).1 exParsedContent rfl
  exact ⟨h, rfl, rfl⟩

/-- Claim C6 counterexample: the identifier constructor is not a registry
entry, yet the bracket lookup finds the truthy inherited prototype
property, the rewrite to the default identifier is skipped, and path.join
throws on the non-string value, so getTemplate surfaces an error instead of
returning the result of the default identifier. -/
theorem claim_C6_counterexample :
    TEMPLATE_OPTIONS.lookup ("constructor") = none ∧
    getTemplate (fun f => some f) [] ("constructor") = Except.error msgPathJoinTypeError ∧
    getTemplate (fun f => some f) [] kDefault
      = Except.ok (compileTemplate ("Resume.html"), [(kDefault, compileTemplate ("Resume.html"))]) ∧
    getTemplate (fun f => some f) [] ("constructor") ≠ getTemplate (fun f => some f) [] kDefault := by
  have hA : getTemplate (fun f => some f) [] ("constructor")
      = Except.error msgPathJoinTypeError := rfl
  have hB : getTemplate (fun f => some f) [] kDefault
      = Except.ok (compileTemplate ("Resume.html"), [(kDefault, compileTemplate ("Resume.html"))]) := rfl
  refine ⟨rfl, hA, hB, ?_⟩
  intro h
  rw [hA, hB] at h
  exact Except.noConfusion h

/-- Claim C6 amended: a requested identifier that is neither a registry
entry nor an inherited object-prototype property name (the blank identifier
included) makes getTemplate behave exactly as on the default identifier,
with no error surfaced: the results, cache updates included, are
identical. -/
theorem claim_C6_amended (fsRead : String → Option String)
    (templateCache : List (String × CompiledTemplate)) (fuel : Nat) (requested : String)
    (hreg : TEMPLATE_OPTIONS.lookup requested = none)
    (hproto : objectPrototypeProps.contains requested = false) :
    getTemplateGo fsRead fuel templateCache requested
      = getTemplateGo fsRead fuel templateCache kDefault := by
  have hnone : templateOptionsLookup requested = none := by
    simp only [templateOptionsLookup, hreg, hproto, Bool.false_eq_true, if_false]
  have hr : resolveTemplateName requested = kDefault := by
    simp [resolveTemplateName, hnone]
  have hd : resolveTemplateName kDefault = kDefault := rfl
  cases fuel with
  | zero => rfl
  | succ f => simp only [getTemplateGo, hr, hd]

/-- Claim C6 witness: an unknown non-prototype identifier and the blank
identifier both resolve to the very result of the default identifier. -/
theorem claim_C6_witness :
    TEMPLATE_OPTIONS.lookup ("fancy") = none ∧
    getTemplateGo (fun f => some f) 2 [] ("fancy")
      = getTemplateGo (fun f => some f) 2 [] kDefault ∧
    getTemplateGo (fun f => some f) 2 [] ("")
      = getTemplateGo (fun f => some f) 2 [] kDefault :=
  ⟨rfl, claim_C6_amended (fun f => some f) [] 2 ("fancy") rfl rfl,
    claim_C6_amended (fun f => some f) [] 2 ("") rfl rfl⟩

/-- Claim C7: the derived filename equals, on every input triple, the
filename worded by the specification (independent sanitization of the
three parts, joined with underscores plus the pdf suffix), and the
specification example evaluates as stated. -/
theorem claim_C7 :
    (∀ profileName company role : String,
      resumeFilename profileName company role = specResumeFilename profileName company role) ∧
    resumeFilename ("Jane Doe") ("Acme, Inc.") ("Sr. Eng!") = "Jane_Doe_Acme_Inc_Sr_Eng.pdf" := by
  constructor
  · intro n c r
    simp [resumeFilename, specResumeFilename, sanitizeFilename_eq_spec]
  · rfl

/-- Claim C8: a profile identifier that is neither cached nor in the store
loads as absent with the cache unchanged, and the handler answers it with
a 404 response instead of an exception reaching rendering. -/
theorem claim_C8 (store : String → Option Json) (profileCache : List (String × Json))
    (profileName : String)
    (hstore : store profileName = none) (hcache : profileCache.lookup profileName = none) :
    loadProfile store profileCache profileName = (none, profileCache) ∧
    profileLookupResponse (loadProfile store profileCache profileName).1 profileName
      = Except.error (404, "Profile \"" ++ profileName ++ "\" not found") := by
  have hload : loadProfile store profileCache profileName = (none, profileCache) := by
    simp only [loadProfile, hcache, hstore]
  exact ⟨hload, by rw [hload]; rfl⟩

/-- Claim C8 witness: an empty store and empty cache yield the 404 error
and leave the cache empty. -/
theorem claim_C8_witness :
    loadProfile (fun _ => none) [] ("ghost") = (none, []) ∧
    profileLookupResponse (loadProfile (fun _ => none) [] ("ghost")).1 ("ghost")
      = Except.error (404, "Profile \"" ++ "ghost" ++ "\" not found") :=
  claim_C8 (fun _ => none) [] ("ghost") rfl rfl
